import Mathlib

/-!
Verification of the camera streaming core of `buildmecar`
(`src/buildmecar/base_camera.py`): the per-client event broadcast
(`CameraEvent`), the singleton metaclass (`SingletonMeta`), and the
streaming lifecycle of `BaseCamera` (`_thread_run`, `start_streaming`,
`stop_streaming`, `get_frame`).

The embedding is shallow: Python `threading.Event` flags become `Bool`,
the `events` dictionary becomes an association list keyed by thread
identity (`Nat`), frames become `Nat`, and the concurrent system becomes
an executable labelled transition system whose atomic actions are the
lock-protected sections of the source.
-/

namespace BuildmeCar

/-! ### Association-list helpers for the `ident -> threading.Event` dictionary -/

/-- Dictionary lookup `self.events[ident]`; `none` models a missing key. -/
def lookupEv : List (Nat × Bool) → Nat → Option Bool
  | [], _ => none
  | (k, v) :: rest, i => if k = i then some v else lookupEv rest i

/-- `event.set()` applied to every stored event (`for event in self.events.values()`). -/
def armAll (l : List (Nat × Bool)) : List (Nat × Bool) :=
  l.map (fun e => (e.1, true))

/-- `event.clear()` applied to the event stored under identity `i`. -/
def disarmAt : List (Nat × Bool) → Nat → List (Nat × Bool)
  | [], _ => []
  | (k, v) :: rest, i =>
    if k = i then (k, false) :: disarmAt rest i else (k, v) :: disarmAt rest i

theorem lookupEv_armAll (l : List (Nat × Bool)) (i : Nat) :
    lookupEv (armAll l) i = (lookupEv l i).map (fun _ => true) := by
  induction l with
  | nil => rfl
  | cons hd tl ih =>
    obtain ⟨k, v⟩ := hd
    by_cases h : k = i
    · simp [armAll, lookupEv, h]
    · simpa [armAll, lookupEv, h] using ih

theorem lookupEv_disarmAt_self (l : List (Nat × Bool)) (i : Nat) :
    lookupEv (disarmAt l i) i = (lookupEv l i).map (fun _ => false) := by
  induction l with
  | nil => rfl
  | cons hd tl ih =>
    obtain ⟨k, v⟩ := hd
    by_cases h : k = i <;> simp [disarmAt, lookupEv, h, ih]

theorem lookupEv_disarmAt_ne (l : List (Nat × Bool)) (i j : Nat) (h : i ≠ j) :
    lookupEv (disarmAt l i) j = lookupEv l j := by
  induction l with
  | nil => rfl
  | cons hd tl ih =>
    obtain ⟨k, v⟩ := hd
    by_cases hk : k = i
    · subst hk
      simp [disarmAt, lookupEv, h, ih]
    · by_cases hkj : k = j <;> simp [disarmAt, lookupEv, hk, hkj, ih, Ne.symm h]

/-! ### `CameraEvent`

```python
class CameraEvent:
    def __init__(self):
        self.events: dict[int : threading.Event()] = {}
        self.lock = threading.Lock()

    def wait(self, timeout=None):
        ident = get_ident()
        with self.lock:
            if ident not in self.events:
                self.events[ident] = threading.Event()
            event = self.events[ident]
        result = event.wait(timeout=timeout)
        event.clear()
        return result

    def set(self):
        with self.lock:
            for event in self.events.values():
                event.set()

    def clear(self):
        self.events[get_ident()][0].clear()
```

A `threading.Event` is its internal boolean flag; a fresh one is unset. -/

structure CameraEvent where
  events : List (Nat × Bool)
deriving DecidableEq, Repr

namespace CameraEvent

/-- `CameraEvent.__init__`: empty dictionary. -/
def empty : CameraEvent := ⟨[]⟩

/-- The locked prologue of `wait`: lazily create the caller's event.
`if ident not in self.events: self.events[ident] = threading.Event()`. -/
def register (s : CameraEvent) (ident : Nat) : CameraEvent :=
  match lookupEv s.events ident with
  | some _ => s
  | none => ⟨(ident, false) :: s.events⟩

/-- The flag of `ident`'s event, i.e. what `event.wait(...)` returns at the
moment it stops blocking (`false` when the identity holds no event). -/
def flag (s : CameraEvent) (ident : Nat) : Bool :=
  (lookupEv s.events ident).getD false

/-- `event.clear()` on the caller's own event, as executed at the end of `wait`. -/
def clearAt (s : CameraEvent) (ident : Nat) : CameraEvent :=
  ⟨disarmAt s.events ident⟩

/-- The return step of `wait`: `result = event.wait(timeout); event.clear();
return result` — read the flag at the state in force when the wait stops
blocking, clear the caller's event, return the flag. -/
def waitReturn (s : CameraEvent) (ident : Nat) : Bool × CameraEvent :=
  (s.flag ident, s.clearAt ident)

/-- `CameraEvent.set`: arm every registered event. -/
def set (s : CameraEvent) : CameraEvent :=
  ⟨armAll s.events⟩

/-- Python exceptions raised by `CameraEvent.clear`. -/
inductive PyError
  | keyError
  | typeError
deriving DecidableEq, Repr

/-- `CameraEvent.clear`: `self.events[get_ident()][0].clear()`.
`self.events[ident]` raises `KeyError` when the identity has no entry;
otherwise it yields a `threading.Event`, and the subscript `[0]` on an
`Event` raises `TypeError` because `Event` supports no indexing. Either
way the call raises and the state is untouched. -/
def clearOp (s : CameraEvent) (ident : Nat) : Except PyError CameraEvent :=
  match lookupEv s.events ident with
  | none => .error .keyError
  | some _ => .error .typeError

end CameraEvent

/-! ### `SingletonMeta`

```python
class SingletonMeta(ABCMeta):
    _instances = {}
    _lock = threading.Lock()

    def __call__(cls, *args, **kwargs):
        with cls._lock:
            if cls not in cls._instances:
                instance = super().__call__(*args, **kwargs)
                cls._instances[cls] = instance
        return cls._instances[cls]
```

Classes and instance objects are identified by `Nat`; `super().__call__`
constructs a fresh object, modelled by the allocator `nextObj`. The whole
check-and-create runs under `cls._lock`, so concurrent calls serialize
into a sequence of atomic `call` steps. -/

structure SingletonRegistry where
  instances : List (Nat × Nat)
  nextObj : Nat
deriving DecidableEq, Repr

namespace SingletonRegistry

/-- Dictionary lookup `cls._instances[cls]` as an `Option`. -/
def find (r : SingletonRegistry) (cls : Nat) : Option Nat :=
  lookupEvN r.instances cls
where
  lookupEvN : List (Nat × Nat) → Nat → Option Nat
    | [], _ => none
    | (k, v) :: rest, i => if k = i then some v else lookupEvN rest i

/-- `SingletonMeta.__call__`: under the lock, create the instance when the
class has none yet; return `cls._instances[cls]`. -/
def call (r : SingletonRegistry) (cls : Nat) : Option Nat × SingletonRegistry :=
  match r.find cls with
  | some _ => (r.find cls, r)
  | none =>
    let r' : SingletonRegistry := ⟨(cls, r.nextObj) :: r.instances, r.nextObj + 1⟩
    (r'.find cls, r')

/-- A sequence of constructor calls, each naming the class being constructed. -/
def runCalls (r : SingletonRegistry) : List Nat → SingletonRegistry
  | [] => r
  | c :: cs => runCalls (r.call c).2 cs

theorem find_call_preserved (r : SingletonRegistry) (cls c i : Nat)
    (h : r.find cls = some i) : (r.call c).2.find cls = some i := by
  unfold call
  cases hfind : r.find c with
  | some j => simpa [hfind] using h
  | none =>
    have hc : c ≠ cls := by
      intro hcc
      subst hcc
      rw [hfind] at h
      exact Option.noConfusion h
    simp only [hfind, find, find.lookupEvN, hc, if_false] at h ⊢
    exact h

theorem find_runCalls_preserved (r : SingletonRegistry) (cls i : Nat) (cs : List Nat)
    (h : r.find cls = some i) : (r.runCalls cs).find cls = some i := by
  induction cs generalizing r with
  | nil => simpa [runCalls] using h
  | cons c cs ih => exact ih _ (find_call_preserved r cls c i h)

end SingletonRegistry

/-! ### The `BaseCamera` streaming system

```python
class BaseCamera(ABC, metaclass=SingletonMeta):
    def __init__(self):
        self._thread = None
        self._frame = None
        self._event = CameraEvent()
        self._lock = threading.Lock()
        self._streaming = False

    def _thread_run(self):
        try:
            for frame in self.frames():
                with self._lock:
                    if not self._streaming:
                        break
                    self._frame = frame
                self._event.set()
                time.sleep(0)
        except Exception as e:
            traceback.print_exc()
            with self._lock:
                self._streaming = False

    def start_streaming(self):
        with self._lock:
            if not self._streaming:
                self._streaming = True
                self._thread = threading.Thread(target=self._thread_run)
                self._thread.daemon = True
                self._thread.start()
        success = self._event.wait(timeout=10.0)
        if not success:
            raise TimeoutError(...)

    def stop_streaming(self):
        with self._lock:
            self._streaming = False
        if self._thread is not None:
            self._thread.join()
            self._thread = None

    def get_frame(self):
        self._event.wait()
        with self._lock:
            return self._frame
```

The system is an executable labelled transition system. Each action is one
lock-protected section (or one blocking return) of the source; the
interleaving of the worker thread with caller threads is a trace of
actions. The abstract generator `self.frames()` is a list of items: each
item is either a yielded frame or the point at which the generator raises. -/

/-- One behaviour step of the abstract generator `self.frames()`. -/
inductive SourceItem
  | frame (f : Nat)
  | err
deriving DecidableEq, Repr

/-- Program counter of the worker thread inside `_thread_run`; `done` also
stands for "no worker thread is alive" (a fresh camera, or a returned one). -/
inductive WorkerPC
  | pull
  | check (f : Nat)
  | setEv
  | fail
  | done
deriving DecidableEq, Repr

/-- The shared state of one `BaseCamera` instance, plus two ghost fields for
observability: `failRecorded` (the exception handler ran `traceback.print_exc`)
and `published` (how many frames were ever written to `self._frame`). -/
structure Sys where
  streaming : Bool
  frame : Option Nat
  threadSome : Bool
  worker : WorkerPC
  src : List SourceItem
  ev : CameraEvent
  failRecorded : Bool
  published : Nat
deriving DecidableEq, Repr

/-- `BaseCamera.__init__`. -/
def Sys.init : Sys :=
  { streaming := false, frame := none, threadSome := false, worker := .done,
    src := [], ev := .empty, failRecorded := false, published := 0 }

/-- Atomic actions. `wStep` is the worker's next step of `_thread_run`;
`stopFlag`/`stopJoin` are the two halves of `stop_streaming`; `startLock src`
is `start_streaming`'s locked section, with `src` the behaviour of the fresh
generator in case a worker is spawned; `waitReg`/`waitWake`/`waitTimeout`
decompose `CameraEvent.wait` (registration; return after the latch was armed,
yielding `True`; return because the timeout elapsed with the latch unarmed,
yielding `False` — the latter arises only for the timed wait inside
`start_streaming`, never for `get_frame`'s untimed wait). -/
inductive Act
  | wStep
  | stopFlag
  | stopJoin
  | startLock (src : List SourceItem)
  | waitReg (ident : Nat)
  | waitWake (ident : Nat)
  | waitTimeout (ident : Nat)
deriving DecidableEq, Repr

/-- The transition function: `none` means the action is not enabled at this
state (the thread performing it is still blocked, or no such thread exists).
The state tracks a single worker slot, so a spawning `startLock` is modelled
only when no worker is alive; the raced corner in which `start_streaming`
spawns while the previous worker still runs (possible between `stopFlag` and
`stopJoin`) is outside the model and outside every claim. -/
def applyAct (s : Sys) : Act → Option Sys
  | .wStep =>
    match s.worker with
    | .done => none
    | .pull =>
      match s.src with
      | [] => some { s with worker := .done }
      | .frame f :: rest => some { s with src := rest, worker := .check f }
      | .err :: rest => some { s with src := rest, worker := .fail }
    | .check f =>
      if s.streaming then
        some { s with frame := some f, published := s.published + 1, worker := .setEv }
      else
        some { s with worker := .done }
    | .setEv => some { s with ev := s.ev.set, worker := .pull }
    | .fail =>
      some { s with failRecorded := true, streaming := false, worker := .done }
  | .stopFlag => some { s with streaming := false }
  | .stopJoin =>
    if s.threadSome then
      if s.worker = .done then some { s with threadSome := false } else none
    else none
  | .startLock newSrc =>
    if s.streaming then some s
    else
      if s.worker = .done then
        some { s with streaming := true, threadSome := true, worker := .pull,
                      src := newSrc }
      else none
  | .waitReg ident => some { s with ev := s.ev.register ident }
  | .waitWake ident =>
    if s.ev.flag ident then some { s with ev := s.ev.clearAt ident } else none
  | .waitTimeout ident =>
    if s.ev.flag ident then none else some { s with ev := s.ev.clearAt ident }

/-- Run a trace of actions. -/
def run (s : Sys) : List Act → Option Sys
  | [] => some s
  | a :: as =>
    match applyAct s a with
    | none => none
    | some s' => run s' as

/-- Whether an action can fire at a state. -/
def enabled (s : Sys) (a : Act) : Bool :=
  (applyAct s a).isSome

/-- The locked read at the end of `get_frame`: `with self._lock: return self._frame`. -/
def Sys.getFrameRead (s : Sys) : Option Nat := s.frame

theorem run_append (s : Sys) (t1 t2 : List Act) :
    run s (t1 ++ t2) = (run s t1).bind (fun s' => run s' t2) := by
  induction t1 generalizing s with
  | nil => simp [run]
  | cons a as ih =>
    cases h : applyAct s a with
    | none => simp [run, h]
    | some s' => simp [run, h, ih]

/-! ### Preservation lemmas -/

/-- Actions that are a `start_streaming` locked section. -/
def isStart : Act → Bool
  | .startLock _ => true
  | _ => false

/-- A generator behaviour that never raises. -/
def srcOk : List SourceItem → Bool
  | [] => true
  | .err :: _ => false
  | .frame _ :: rest => srcOk rest

/-- Worker program counters other than the exception handler. -/
def notFail : WorkerPC → Bool
  | .fail => false
  | _ => true

theorem streaming_false_preserved (s s' : Sys) (a : Act)
    (hs : s.streaming = false) (ha : isStart a = false)
    (h : applyAct s a = some s') : s'.streaming = false := by
  cases a with
  | wStep =>
    cases hw : s.worker with
    | pull =>
      cases hsrc : s.src with
      | nil => simp [applyAct, hw, hsrc] at h; simp [← h, hs]
      | cons it rest =>
        cases it <;> simp [applyAct, hw, hsrc] at h <;> simp [← h, hs]
    | check f => simp [applyAct, hw, hs] at h; simp [← h, hs]
    | setEv => simp [applyAct, hw] at h; simp [← h, hs]
    | fail => simp [applyAct, hw] at h; simp [← h]
    | done => simp [applyAct, hw] at h
  | stopFlag => simp [applyAct] at h; simp [← h]
  | stopJoin =>
    simp [applyAct] at h
    obtain ⟨-, -, h⟩ := h
    simp [← h, hs]
  | startLock ns => simp [isStart] at ha
  | waitReg i => simp [applyAct] at h; simp [← h, hs]
  | waitWake i =>
    simp [applyAct] at h
    obtain ⟨-, h⟩ := h
    simp [← h, hs]
  | waitTimeout i =>
    simp [applyAct] at h
    obtain ⟨-, h⟩ := h
    simp [← h, hs]

theorem streaming_false_run (s s' : Sys) (t : List Act)
    (hs : s.streaming = false) (ht : ∀ a ∈ t, isStart a = false)
    (h : run s t = some s') : s'.streaming = false := by
  induction t generalizing s with
  | nil => simp [run] at h; simpa [← h] using hs
  | cons a as ih =>
    cases happ : applyAct s a with
    | none => simp [run, happ] at h
    | some s1 =>
      simp [run, happ] at h
      exact ih s1 (streaming_false_preserved s s1 a hs (ht a (by simp)) happ)
        (fun b hb => ht b (by simp [hb])) h

theorem post_stop_preserved (s s' : Sys) (a : Act)
    (hw : s.worker = .done) (ha : isStart a = false)
    (h : applyAct s a = some s') :
    s'.worker = .done ∧ s'.frame = s.frame ∧ s'.published = s.published := by
  cases a with
  | wStep => simp [applyAct, hw] at h
  | stopFlag => simp [applyAct] at h; simp [← h, hw]
  | stopJoin =>
    simp [applyAct] at h
    obtain ⟨-, -, h⟩ := h
    simp [← h, hw]
  | startLock ns => simp [isStart] at ha
  | waitReg i => simp [applyAct] at h; simp [← h, hw]
  | waitWake i =>
    simp [applyAct] at h
    obtain ⟨-, h⟩ := h
    simp [← h, hw]
  | waitTimeout i =>
    simp [applyAct] at h
    obtain ⟨-, h⟩ := h
    simp [← h, hw]

theorem post_stop_run (s s' : Sys) (t : List Act)
    (hw : s.worker = .done) (ht : ∀ a ∈ t, isStart a = false)
    (h : run s t = some s') :
    s'.worker = .done ∧ s'.frame = s.frame ∧ s'.published = s.published := by
  induction t generalizing s with
  | nil => simp [run] at h; simp [← h, hw]
  | cons a as ih =>
    cases happ : applyAct s a with
    | none => simp [run, happ] at h
    | some s1 =>
      simp [run, happ] at h
      obtain ⟨h1, h2, h3⟩ := post_stop_preserved s s1 a hw (ht a (by simp)) happ
      obtain ⟨g1, g2, g3⟩ := ih s1 h1 (fun b hb => ht b (by simp [hb])) h
      exact ⟨g1, g2.trans h2, g3.trans h3⟩

/-- Actions allowed when no `stop_streaming` call intervenes and no newly
spawned generator can raise: everything except the two halves of
`stop_streaming`, and `startLock` only with a non-raising generator. -/
def actNoStop : Act → Bool
  | .stopFlag => false
  | .stopJoin => false
  | .startLock ns => srcOk ns
  | _ => true

/-- The remaining generator never raises, the worker is not in the exception
handler, the streaming flag is set and the thread handle is set. -/
def Sys.okRunning (s : Sys) : Bool :=
  srcOk s.src && notFail s.worker && s.streaming && s.threadSome

theorem okRunning_preserved (s s' : Sys) (a : Act)
    (hs : s.okRunning = true) (ha : actNoStop a = true)
    (h : applyAct s a = some s') : s'.okRunning = true := by
  simp only [Sys.okRunning, Bool.and_eq_true] at hs
  obtain ⟨⟨⟨hsrc, hnf⟩, hstr⟩, hth⟩ := hs
  cases a with
  | wStep =>
    cases hw : s.worker with
    | pull =>
      cases hsc : s.src with
      | nil =>
        simp [applyAct, hw, hsc] at h
        simp [← h, Sys.okRunning, notFail, hstr, hth, hsc ▸ hsrc]
      | cons it rest =>
        cases it with
        | frame f =>
          simp [applyAct, hw, hsc] at h
          rw [hsc] at hsrc
          simp [← h, Sys.okRunning, notFail, hstr, hth]
          simpa [srcOk] using hsrc
        | err => rw [hsc] at hsrc; simp [srcOk] at hsrc
    | check f =>
      simp [applyAct, hw, hstr] at h
      simp [← h, Sys.okRunning, notFail, hstr, hth, hsrc]
    | setEv =>
      simp [applyAct, hw] at h
      simp [← h, Sys.okRunning, notFail, hstr, hth, hsrc]
    | fail => rw [hw] at hnf; simp [notFail] at hnf
    | done => simp [applyAct, hw] at h
  | stopFlag => simp [actNoStop] at ha
  | stopJoin => simp [actNoStop] at ha
  | startLock ns =>
    simp [applyAct, hstr] at h
    simp [← h, Sys.okRunning, hsrc, hnf, hstr, hth]
  | waitReg i =>
    simp [applyAct] at h
    simp [← h, Sys.okRunning, hsrc, hnf, hstr, hth]
  | waitWake i =>
    simp [applyAct] at h
    obtain ⟨-, h⟩ := h
    simp [← h, Sys.okRunning, hsrc, hnf, hstr, hth]
  | waitTimeout i =>
    simp [applyAct] at h
    obtain ⟨-, h⟩ := h
    simp [← h, Sys.okRunning, hsrc, hnf, hstr, hth]

theorem okRunning_run (s s' : Sys) (t : List Act)
    (hs : s.okRunning = true) (ht : ∀ a ∈ t, actNoStop a = true)
    (h : run s t = some s') : s'.okRunning = true := by
  induction t generalizing s with
  | nil => simp [run] at h; simpa [← h] using hs
  | cons a as ih =>
    cases happ : applyAct s a with
    | none => simp [run, happ] at h
    | some s1 =>
      simp [run, happ] at h
      exact ih s1 (okRunning_preserved s s1 a hs (ht a (by simp)) happ)
        (fun b hb => ht b (by simp [hb])) h

theorem flag_register_true (s : CameraEvent) (i j : Nat)
    (h : (s.register i).flag j = true) : s.flag j = true := by
  unfold CameraEvent.register at h
  cases hl : lookupEv s.events i with
  | some b => rw [hl] at h; exact h
  | none =>
    rw [hl] at h
    unfold CameraEvent.flag at h ⊢
    by_cases hij : i = j
    · subst hij
      simp [lookupEv] at h
    · simpa [lookupEv, hij] using h

theorem flag_clearAt_true (s : CameraEvent) (i j : Nat)
    (h : (s.clearAt i).flag j = true) : s.flag j = true := by
  unfold CameraEvent.clearAt at h
  unfold CameraEvent.flag at h ⊢
  by_cases hij : i = j
  · subst hij
    rw [lookupEv_disarmAt_self] at h
    cases hl : lookupEv s.events i <;> simp [hl] at h
  · rwa [lookupEv_disarmAt_ne _ _ _ hij] at h

/-- Invariant tying armed latches to published frames: an armed latch (or a
worker about to call `event.set`) means the frame slot holds a frame, and any
held frame was counted by the ghost publication counter. -/
def Sys.inv (s : Sys) : Prop :=
  (s.worker = .setEv → s.frame ≠ none) ∧
  (∀ i, s.ev.flag i = true → s.frame ≠ none) ∧
  (s.frame ≠ none → 1 ≤ s.published)

theorem inv_init : Sys.init.inv := by
  refine ⟨by simp [Sys.init], fun i h => ?_, by simp [Sys.init]⟩
  simp [Sys.init, CameraEvent.empty, CameraEvent.flag, lookupEv] at h

theorem inv_preserved (s s' : Sys) (a : Act)
    (hs : s.inv) (h : applyAct s a = some s') : s'.inv := by
  obtain ⟨h1, h2, h3⟩ := hs
  cases a with
  | wStep =>
    cases hw : s.worker with
    | pull =>
      cases hsc : s.src with
      | nil =>
        simp [applyAct, hw, hsc] at h
        refine ⟨by simp [← h], fun i hi => ?_, by simp [← h]; exact h3⟩
        rw [← h] at hi ⊢
        exact h2 i hi
      | cons it rest =>
        cases it <;> simp [applyAct, hw, hsc] at h <;>
          exact ⟨by simp [← h], fun i hi => by rw [← h] at hi ⊢; exact h2 i hi,
                 by rw [← h]; exact h3⟩
    | check f =>
      by_cases hstr : s.streaming = true
      · simp [applyAct, hw, hstr] at h
        exact ⟨by simp [← h], fun i hi => by simp [← h], by simp [← h]⟩
      · simp only [Bool.not_eq_true] at hstr
        simp [applyAct, hw, hstr] at h
        exact ⟨by simp [← h], fun i hi => by rw [← h] at hi ⊢; exact h2 i hi,
               by rw [← h]; exact h3⟩
    | setEv =>
      simp [applyAct, hw] at h
      have hfr : s.frame ≠ none := h1 hw
      exact ⟨by simp [← h], fun i hi => by rw [← h]; exact hfr, by rw [← h]; exact h3⟩
    | fail =>
      simp [applyAct, hw] at h
      exact ⟨by simp [← h], fun i hi => by rw [← h] at hi ⊢; exact h2 i hi,
             by rw [← h]; exact h3⟩
    | done => simp [applyAct, hw] at h
  | stopFlag =>
    simp [applyAct] at h
    exact ⟨fun hso => by rw [← h] at hso ⊢; exact h1 hso,
           fun i hi => by rw [← h] at hi ⊢; exact h2 i hi, by rw [← h]; exact h3⟩
  | stopJoin =>
    simp [applyAct] at h
    obtain ⟨-, hwd, h⟩ := h
    refine ⟨fun hso => ?_, fun i hi => by rw [← h] at hi ⊢; exact h2 i hi,
            by rw [← h]; exact h3⟩
    rw [← h] at hso
    simp at hso
    rw [hso] at hwd
    exact absurd hwd (by simp)
  | startLock ns =>
    by_cases hstr : s.streaming = true
    · simp [applyAct, hstr] at h
      rw [← h]
      exact ⟨h1, h2, h3⟩
    · simp only [Bool.not_eq_true] at hstr
      by_cases hwd : s.worker = .done
      · simp [applyAct, hstr, hwd] at h
        exact ⟨by simp [← h], fun i hi => by rw [← h] at hi ⊢; exact h2 i hi,
               by rw [← h]; exact h3⟩
      · simp [applyAct, hstr, hwd] at h
  | waitReg i =>
    simp [applyAct] at h
    exact ⟨fun hso => by rw [← h] at hso ⊢; exact h1 hso,
           fun j hj => by rw [← h] at hj ⊢; exact h2 j (flag_register_true _ _ _ hj),
           by rw [← h]; exact h3⟩
  | waitWake i =>
    simp [applyAct] at h
    obtain ⟨-, h⟩ := h
    exact ⟨fun hso => by rw [← h] at hso ⊢; exact h1 hso,
           fun j hj => by rw [← h] at hj ⊢; exact h2 j (flag_clearAt_true _ _ _ hj),
           by rw [← h]; exact h3⟩
  | waitTimeout i =>
    simp [applyAct] at h
    obtain ⟨-, h⟩ := h
    exact ⟨fun hso => by rw [← h] at hso ⊢; exact h1 hso,
           fun j hj => by rw [← h] at hj ⊢; exact h2 j (flag_clearAt_true _ _ _ hj),
           by rw [← h]; exact h3⟩

theorem inv_run (s s' : Sys) (t : List Act)
    (hs : s.inv) (h : run s t = some s') : s'.inv := by
  induction t generalizing s with
  | nil => simp [run] at h; rwa [← h]
  | cons a as ih =>
    cases happ : applyAct s a with
    | none => simp [run, happ] at h
    | some s1 =>
      simp [run, happ] at h
      exact ih s1 (inv_preserved s s1 a hs happ) h

theorem register_noop (s : CameraEvent) (i : Nat) (b : Bool)
    (h : lookupEv s.events i = some b) : s.register i = s := by
  unfold CameraEvent.register
  rw [h]

theorem lookupEv_register_self_isSome (s : CameraEvent) (i : Nat) :
    ∃ b, lookupEv ((s.register i).events) i = some b := by
  unfold CameraEvent.register
  cases hl : lookupEv s.events i with
  | some b => exact ⟨b, by simpa using hl⟩
  | none => exact ⟨false, by simp [lookupEv]⟩

theorem flag_clearAt_self (s : CameraEvent) (i : Nat) :
    (s.clearAt i).flag i = false := by
  unfold CameraEvent.clearAt CameraEvent.flag
  rw [lookupEv_disarmAt_self]
  cases lookupEv s.events i <;> rfl

/-! ### The claims -/

/-- Claim C1: per-identity latch independence (no lost wakeup). For two
distinct identities A and B that both hold a registered latch, a full `wait`
performed by A — the lazy registration followed by the flag read and
`event.clear()` — leaves B's latch exactly as it was; after any subsequent
`CameraEvent.set`, B's latch is armed, and B's next `wait` returns `True`,
independent of A's behaviour. -/
theorem c1_latch_independence (s : CameraEvent) (A B : Nat) (hAB : A ≠ B)
    (bB : Bool) (hB : lookupEv s.events B = some bB) :
    lookupEv (((s.register A).waitReturn A).2).events B = some bB ∧
    lookupEv ((((s.register A).waitReturn A).2).set).events B = some true ∧
    (((((s.register A).waitReturn A).2).set).waitReturn B).1 = true := by
  have hreg : lookupEv ((s.register A).events) B = some bB := by
    unfold CameraEvent.register
    cases hl : lookupEv s.events A with
    | some b => simpa using hB
    | none => simpa [lookupEv, hAB] using hB
  have h1 : lookupEv (((s.register A).waitReturn A).2).events B = some bB := by
    simp only [CameraEvent.waitReturn, CameraEvent.clearAt]
    rw [lookupEv_disarmAt_ne _ _ _ hAB]
    exact hreg
  have h2 : lookupEv ((((s.register A).waitReturn A).2).set).events B = some true := by
    simp only [CameraEvent.set]
    rw [lookupEv_armAll, h1]
    rfl
  refine ⟨h1, h2, ?_⟩
  have h2' : lookupEv (((s.register A).clearAt A).set).events B = some true := by
    simpa only [CameraEvent.waitReturn] using h2
  simp only [CameraEvent.waitReturn, CameraEvent.flag]
  rw [h2']
  rfl

theorem c1_latch_independence_witness :
    (1 : Nat) ≠ 2 ∧
    (lookupEv ((((CameraEvent.mk [(1, true), (2, false)]).register 1).waitReturn 1).2).events 2 =
        some false ∧
     lookupEv (((((CameraEvent.mk [(1, true), (2, false)]).register 1).waitReturn 1).2).set).events 2 =
        some true ∧
     ((((((CameraEvent.mk [(1, true), (2, false)]).register 1).waitReturn 1).2).set).waitReturn 2).1 =
        true) :=
  ⟨by decide, c1_latch_independence ⟨[(1, true), (2, false)]⟩ 1 2 (by decide) false (by decide)⟩

/-- Claim C5: latch auto-clear on wake. A `wait` during which a
`CameraEvent.set` fires returns `True`; with the latch unarmed and no `set`
before the deadline, the timeout elapses and `wait` returns `False`; and on a
`True` return the caller's latch has been cleared, so an immediately following
`wait` by the same identity finds its latch unarmed — it blocks until the next
notification and never re-fires on the stale signal. -/
theorem c5_wait_auto_clear (s : CameraEvent) (ident : Nat) :
    (((s.register ident).set).waitReturn ident).1 = true ∧
    (s.flag ident = false → ((s.register ident).waitReturn ident).1 = false) ∧
    ((((s.register ident).set).waitReturn ident).2.flag ident = false) ∧
    (((((s.register ident).set).waitReturn ident).2.register ident).waitReturn ident).1 =
      false := by
  obtain ⟨b, hb⟩ := lookupEv_register_self_isSome s ident
  have harm : ((s.register ident).set).flag ident = true := by
    simp only [CameraEvent.set, CameraEvent.flag]
    rw [lookupEv_armAll, hb]
    rfl
  refine ⟨harm, ?_, flag_clearAt_self _ _, ?_⟩
  · intro hflag
    simp only [CameraEvent.waitReturn]
    unfold CameraEvent.register
    cases hl : lookupEv s.events ident with
    | some b0 =>
      unfold CameraEvent.flag at hflag ⊢
      rw [hl] at hflag
      rwa [hl]
    | none =>
      simp [CameraEvent.flag, lookupEv]
  · have hcl : ((((s.register ident).set).waitReturn ident).2).flag ident = false :=
      flag_clearAt_self _ _
    simp only [CameraEvent.waitReturn] at hcl ⊢
    have hlk : lookupEv ((((s.register ident).set).clearAt ident).events) ident =
        some false := by
      simp only [CameraEvent.clearAt]
      rw [lookupEv_disarmAt_self]
      simp only [CameraEvent.set]
      rw [lookupEv_armAll, hb]
      rfl
    rw [register_noop _ _ _ hlk]
    simp only [CameraEvent.flag]
    rw [hlk]
    rfl

theorem c5_wait_auto_clear_witness :
    ((((CameraEvent.mk []).register 7).set).waitReturn 7).1 = true ∧
    ((CameraEvent.mk []).flag 7 = false →
      (((CameraEvent.mk []).register 7).waitReturn 7).1 = false) ∧
    (((((CameraEvent.mk []).register 7).set).waitReturn 7).2.flag 7 = false) ∧
    ((((((CameraEvent.mk []).register 7).set).waitReturn 7).2.register 7).waitReturn 7).1 =
      false :=
  c5_wait_auto_clear ⟨[]⟩ 7

/-- Claim C10: `CameraEvent.clear` never succeeds. For every caller identity
the call raises: `TypeError` when the identity holds a registered latch (the
code subscripts a `threading.Event` with `[0]`), `KeyError` when it holds none
(the dictionary subscript fails first). The documented per-client clear
operation is unusable. -/
theorem c10_clear_always_raises (s : CameraEvent) (ident : Nat) :
    (∀ s', s.clearOp ident ≠ .ok s') ∧
    (∀ b, lookupEv s.events ident = some b →
      s.clearOp ident = .error .typeError) ∧
    (lookupEv s.events ident = none → s.clearOp ident = .error .keyError) := by
  unfold CameraEvent.clearOp
  cases hl : lookupEv s.events ident <;> simp [hl]

theorem c10_clear_always_raises_witness :
    ((∀ s', (CameraEvent.mk [(3, true)]).clearOp 3 ≠ .ok s') ∧
     (∀ b, lookupEv [(3, true)] 3 = some b →
       (CameraEvent.mk [(3, true)]).clearOp 3 = .error .typeError) ∧
     (lookupEv [(3, true)] 3 = none →
       (CameraEvent.mk [(3, true)]).clearOp 3 = .error .keyError)) ∧
    ((∀ s', (CameraEvent.mk []).clearOp 4 ≠ .ok s') ∧
     (∀ b, lookupEv ([] : List (Nat × Bool)) 4 = some b →
       (CameraEvent.mk []).clearOp 4 = .error .typeError) ∧
     (lookupEv ([] : List (Nat × Bool)) 4 = none →
       (CameraEvent.mk []).clearOp 4 = .error .keyError)) :=
  ⟨c10_clear_always_raises ⟨[(3, true)]⟩ 3, c10_clear_always_raises ⟨[]⟩ 4⟩

theorem call_returns_existing (r : SingletonRegistry) (cls i : Nat)
    (h : r.find cls = some i) : (r.call cls).1 = some i := by
  unfold SingletonRegistry.call
  simp [h]

/-- Claim C9: singleton controller instance. With creation guarded by the
class-level lock, constructor calls serialize; on a registry holding no
instance for the class yet, the first call constructs and registers one, and
every later call — after any interleaving of constructor calls for arbitrary
classes — returns that very first instance, which is never recreated. -/
theorem c9_singleton_instance (r0 : SingletonRegistry) (cls : Nat)
    (h0 : r0.find cls = none) (cs : List Nat) :
    (r0.call cls).1 = some r0.nextObj ∧
    (r0.call cls).2.find cls = some r0.nextObj ∧
    ((r0.call cls).2.runCalls cs).find cls = some r0.nextObj ∧
    (((r0.call cls).2.runCalls cs).call cls).1 = some r0.nextObj := by
  have h0' : SingletonRegistry.find.lookupEvN r0.instances cls = none := by
    simpa [SingletonRegistry.find] using h0
  have hfind : (r0.call cls).2.find cls = some r0.nextObj := by
    unfold SingletonRegistry.call
    simp [SingletonRegistry.find, h0', SingletonRegistry.find.lookupEvN]
  have hret : (r0.call cls).1 = some r0.nextObj := by
    unfold SingletonRegistry.call
    simp [SingletonRegistry.find, h0', SingletonRegistry.find.lookupEvN]
  have hrun : ((r0.call cls).2.runCalls cs).find cls = some r0.nextObj :=
    SingletonRegistry.find_runCalls_preserved _ _ _ _ hfind
  exact ⟨hret, hfind, hrun, call_returns_existing _ _ _ hrun⟩

theorem c9_singleton_instance_witness :
    (SingletonRegistry.mk [] 0).find 5 = none ∧
    (((SingletonRegistry.mk [] 0).call 5).1 = some 0 ∧
     ((SingletonRegistry.mk [] 0).call 5).2.find 5 = some 0 ∧
     (((SingletonRegistry.mk [] 0).call 5).2.runCalls [5, 9, 5, 2]).find 5 = some 0 ∧
     ((((SingletonRegistry.mk [] 0).call 5).2.runCalls [5, 9, 5, 2]).call 5).1 = some 0) :=
  ⟨by decide, c9_singleton_instance ⟨[], 0⟩ 5 (by decide) [5, 9, 5, 2]⟩

/-- The trace of a `start_streaming` call on a fresh idle camera whose frame
source yields nothing: the locked section spawns the worker, the caller
(identity 1) registers its latch, the worker finds the generator exhausted and
terminates, and the caller's 10-second wait times out, whereupon
`start_streaming` raises `TimeoutError`. -/
def startTimeoutTrace : List Act :=
  [.startLock [], .waitReg 1, .wStep, .waitTimeout 1]

/-- Claim C2, counterexample: after the timed-out `start_streaming` of
`startTimeoutTrace`, the streaming flag is still `true` and the thread handle
is still set — `start_streaming` raised without rolling the state back to
idle, so the claim that afterwards the streaming flag is `false` fails at this
concrete execution. -/
theorem c2_counterexample :
    (run Sys.init startTimeoutTrace).map Sys.streaming = some true ∧
    (run Sys.init startTimeoutTrace).map Sys.threadSome = some true := by
  exact ⟨rfl, rfl⟩

/-- Claim C2 amended: a `start_streaming` on a fresh idle camera raises
`TimeoutError` when its 10-second wait elapses with no frame (the `waitTimeout`
step, enabled exactly when the caller's latch stayed unarmed), but performs no
rollback: as long as no `stop_streaming` runs and no generator raises, the
streaming flag remains `true` and the thread handle remains set afterwards, so
a following status check reports streaming as `true`, not `false`. -/
theorem c2_no_rollback_after_timeout (src : List SourceItem) (m : List Act) (sF : Sys)
    (hsrc : srcOk src = true) (hm : ∀ a ∈ m, actNoStop a = true)
    (h : run Sys.init (.startLock src :: m) = some sF) :
    sF.streaming = true ∧ sF.threadSome = true := by
  have happ : applyAct Sys.init (.startLock src) =
      some (Sys.mk true none true .pull src .empty false 0) := rfl
  rw [show (Act.startLock src :: m) = [Act.startLock src] ++ m from rfl,
      run_append] at h
  simp only [run, happ, Option.some_bind] at h
  have hok : Sys.okRunning (Sys.mk true none true .pull src .empty false 0) = true := by
    simp [Sys.okRunning, notFail, hsrc]
  have hF := okRunning_run _ _ _ hok hm h
  simp only [Sys.okRunning, Bool.and_eq_true] at hF
  exact ⟨hF.1.2, hF.2⟩

theorem c2_no_rollback_after_timeout_witness :
    (Sys.mk true none true .done [] ⟨[(1, false)]⟩ false 0).streaming = true ∧
    (Sys.mk true none true .done [] ⟨[(1, false)]⟩ false 0).threadSome = true :=
  c2_no_rollback_after_timeout [] [.waitReg 1, .wStep, .waitTimeout 1]
    (Sys.mk true none true .done [] ⟨[(1, false)]⟩ false 0)
    (by decide) (by decide) (by decide)

/-- A first `start_streaming` on a fresh camera with a one-frame source, run
to completion: spawn, caller (identity 1) registers its latch, the worker
pulls the frame, writes it, arms all latches, the caller wakes (start
succeeds), and the worker finds the source exhausted and terminates. One frame
is published and the camera is running. -/
def firstStartTrace : List Act :=
  [.startLock [.frame 0], .waitReg 1, .wStep, .wStep, .wStep, .waitWake 1, .wStep]

/-- The locked section and latch registration of a second `start_streaming`
call by the same caller. -/
def secondStartTrace : List Act :=
  [.startLock [], .waitReg 1]

/-- Claim C3, counterexample: on a running camera with one frame already
published (`firstStartTrace`), a second `start_streaming` call spawns no second
worker, but it does not return immediately: after its latch registration the
caller's `self._event.wait(10.0)` cannot complete (`waitWake` is disabled
because the caller's latch is unarmed — the first call consumed it), and only
the timeout (`waitTimeout`, raising `TimeoutError`) is enabled. The claim that
the second call returns without waiting again for a frame fails at this
concrete execution. -/
theorem c3_counterexample :
    (run Sys.init (firstStartTrace ++ secondStartTrace)).map Sys.published = some 1 ∧
    (run Sys.init (firstStartTrace ++ secondStartTrace)).map Sys.streaming = some true ∧
    (run Sys.init (firstStartTrace ++ secondStartTrace)).map
      (fun s => enabled s (.waitWake 1)) = some false ∧
    (run Sys.init (firstStartTrace ++ secondStartTrace)).map
      (fun s => enabled s (.waitTimeout 1)) = some true := by
  exact ⟨rfl, rfl, rfl, rfl⟩

/-- Claim C3 amended: a `start_streaming` call in the running state spawns no
second worker — its locked section leaves the state entirely unchanged — but
it does not return immediately: it performs `self._event.wait(10.0)` anew, and
whenever the caller's latch is unarmed after registration the wait cannot
complete at once; it returns only on a new frame notification or raises
`TimeoutError` when the bound elapses. -/
theorem c3_idempotent_but_rewaits (s : Sys) (src : List SourceItem) (ident : Nat)
    (hrun : s.streaming = true) :
    applyAct s (.startLock src) = some s ∧
    ((s.ev.register ident).flag ident = false →
      enabled { s with ev := s.ev.register ident } (.waitWake ident) = false ∧
      enabled { s with ev := s.ev.register ident } (.waitTimeout ident) = true) := by
  refine ⟨by simp [applyAct, hrun], fun hflag => ?_⟩
  constructor <;> simp [enabled, applyAct, hflag]

theorem c3_idempotent_but_rewaits_witness :
    applyAct (Sys.mk true (some 0) true .done [] ⟨[(1, false)]⟩ false 1)
      (.startLock []) = some (Sys.mk true (some 0) true .done [] ⟨[(1, false)]⟩ false 1) ∧
    (((CameraEvent.mk [(1, false)]).register 1).flag 1 = false →
      enabled (Sys.mk true (some 0) true .done []
          ((CameraEvent.mk [(1, false)]).register 1) false 1) (.waitWake 1) = false ∧
      enabled (Sys.mk true (some 0) true .done []
          ((CameraEvent.mk [(1, false)]).register 1) false 1) (.waitTimeout 1) = true) :=
  c3_idempotent_but_rewaits (Sys.mk true (some 0) true .done [] ⟨[(1, false)]⟩ false 1)
    [] 1 (by decide)

/-- Claim C4: full stop before return. For a `stop_streaming` call made in the
running state — the flag reset, then any interleaving free of further
`start_streaming` calls, then the join, which completes only once the worker
has terminated — on return the streaming flag is `false`, the thread handle is
`None`, the worker is dead, and in every continuation without a new
`start_streaming` the frame slot and the publication counter never change
again. Moreover `stop_streaming` in the idle state is a no-op: the flag write
rewrites `false` over `false` and the join is skipped because the handle is
`None`. -/
theorem c4_full_stop (s sEnd sF : Sys) (m t2 : List Act)
    (_hRun : s.streaming = true) (_hTh : s.threadSome = true)
    (hm : ∀ a ∈ m, isStart a = false)
    (hstop : run s (.stopFlag :: m ++ [.stopJoin]) = some sEnd)
    (ht2 : ∀ a ∈ t2, isStart a = false)
    (hcont : run sEnd t2 = some sF) :
    sEnd.streaming = false ∧ sEnd.threadSome = false ∧ sEnd.worker = .done ∧
    sF.frame = sEnd.frame ∧ sF.published = sEnd.published ∧
    (∀ u : Sys, u.streaming = false →
      applyAct u .stopFlag = some u ∧
      (u.threadSome = false → applyAct u .stopJoin = none)) := by
  have hnoop : ∀ u : Sys, u.streaming = false →
      applyAct u .stopFlag = some u ∧
      (u.threadSome = false → applyAct u .stopJoin = none) := by
    intro u hu
    obtain ⟨st, fr, th, w, sr, e, fa, p⟩ := u
    simp only at hu
    subst hu
    exact ⟨rfl, fun hut => by simp only at hut; subst hut; rfl⟩
  have h1 : applyAct s .stopFlag = some { s with streaming := false } := rfl
  rw [show (Act.stopFlag :: m ++ [Act.stopJoin]) =
        [Act.stopFlag] ++ (m ++ [Act.stopJoin]) from rfl, run_append] at hstop
  simp only [run, h1, Option.some_bind] at hstop
  rw [run_append] at hstop
  cases h2 : run { s with streaming := false } m with
  | none => rw [h2] at hstop; simp at hstop
  | some s2 =>
    rw [h2] at hstop
    simp only [Option.some_bind] at hstop
    have hstr2 : s2.streaming = false :=
      streaming_false_run { s with streaming := false } s2 m rfl hm h2
    by_cases hth2 : s2.threadSome = true
    · by_cases hwd2 : s2.worker = .done
      · have h3 : applyAct s2 .stopJoin = some { s2 with threadSome := false } := by
          simp [applyAct, hth2, hwd2]
        simp only [run, h3] at hstop
        have hEnd : sEnd = { s2 with threadSome := false } := by
          simpa [run] using hstop.symm
        subst hEnd
        obtain ⟨p1, p2, p3⟩ := post_stop_run _ _ t2 (by simpa using hwd2) ht2 hcont
        exact ⟨hstr2, rfl, by simpa using hwd2, p2, p3, hnoop⟩
      · simp [run, applyAct, hth2, hwd2] at hstop
    · simp [run, applyAct, hth2] at hstop

theorem c4_full_stop_witness :
    (Sys.mk false (some 0) false .done [] ⟨[(1, false)]⟩ false 1).streaming = false ∧
    (Sys.mk false (some 0) false .done [] ⟨[(1, false)]⟩ false 1).threadSome = false ∧
    (Sys.mk false (some 0) false .done [] ⟨[(1, false)]⟩ false 1).worker = .done ∧
    (Sys.mk false (some 0) false .done [] ⟨[(1, false)]⟩ false 1).frame =
      (Sys.mk false (some 0) false .done [] ⟨[(1, false)]⟩ false 1).frame ∧
    (Sys.mk false (some 0) false .done [] ⟨[(1, false)]⟩ false 1).published =
      (Sys.mk false (some 0) false .done [] ⟨[(1, false)]⟩ false 1).published ∧
    (∀ u : Sys, u.streaming = false →
      applyAct u .stopFlag = some u ∧
      (u.threadSome = false → applyAct u .stopJoin = none)) :=
  c4_full_stop (Sys.mk true (some 0) true .pull [] ⟨[(1, false)]⟩ false 1)
    (Sys.mk false (some 0) false .done [] ⟨[(1, false)]⟩ false 1)
    (Sys.mk false (some 0) false .done [] ⟨[(1, false)]⟩ false 1)
    [.wStep] [.stopFlag]
    (by decide) (by decide) (by decide) (by decide) (by decide) (by decide)

/-- Claim C6: fail-stop on source failure. When the generator raises during
production (worker at the pull point, next source item an exception), the
worker's two remaining steps consume the exception: the handler records the
failure, sets the streaming flag to `false`, and the thread terminates. The
frame slot and publication counter are untouched, and in every continuation
without a new `start_streaming` no frame is ever published again and the
worker never retries. -/
theorem c6_fail_stop (s sF : Sys) (rest : List SourceItem) (t2 : List Act)
    (hpc : s.worker = .pull) (hsrc : s.src = .err :: rest)
    (ht2 : ∀ a ∈ t2, isStart a = false)
    (hcont : run { s with src := rest, streaming := false, failRecorded := true,
                          worker := .done } t2 = some sF) :
    run s [.wStep, .wStep] =
      some { s with src := rest, streaming := false, failRecorded := true,
                    worker := .done } ∧
    sF.worker = .done ∧ sF.frame = s.frame ∧ sF.published = s.published := by
  have h1 : applyAct s .wStep = some { s with src := rest, worker := .fail } := by
    simp [applyAct, hpc, hsrc]
  have h2 : applyAct { s with src := rest, worker := .fail } .wStep =
      some { s with src := rest, failRecorded := true, streaming := false,
                    worker := .done } := by
    simp [applyAct]
  obtain ⟨p1, p2, p3⟩ := post_stop_run _ _ t2 rfl ht2 hcont
  exact ⟨by simp [run, h1, h2], p1, p2, p3⟩

theorem c6_fail_stop_witness :
    run (Sys.mk true (some 9) true .pull [.err] ⟨[]⟩ false 1) [.wStep, .wStep] =
      some (Sys.mk false (some 9) true .done [] ⟨[]⟩ true 1) ∧
    (Sys.mk false (some 9) true .done [] ⟨[]⟩ true 1).worker = .done ∧
    (Sys.mk false (some 9) true .done [] ⟨[]⟩ true 1).frame =
      (Sys.mk true (some 9) true .pull [.err] ⟨[]⟩ false 1).frame ∧
    (Sys.mk false (some 9) true .done [] ⟨[]⟩ true 1).published =
      (Sys.mk true (some 9) true .pull [.err] ⟨[]⟩ false 1).published :=
  c6_fail_stop (Sys.mk true (some 9) true .pull [.err] ⟨[]⟩ false 1)
    (Sys.mk false (some 9) true .done [] ⟨[]⟩ true 1)
    [] [.stopFlag] (by decide) (by decide) (by decide) (by decide)

/-- Claim C7: `get_frame` blocks until a frame is available and then returns
the shared slot's current contents. In every execution from a fresh camera, the
untimed `self._event.wait()` of `get_frame` can complete (`waitWake` enabled
for the caller's own latch) only when the frame slot holds a frame and at
least one frame has been published; the locked read then returns exactly the
slot's contents, and the completed wait leaves the caller's latch cleared, so
the next `get_frame` blocks until the next frame's notification. -/
theorem c7_get_frame (t : List Act) (s : Sys) (ident : Nat)
    (h : run Sys.init t = some s) (hwake : enabled s (.waitWake ident) = true) :
    ∃ f, s.frame = some f ∧ 1 ≤ s.published ∧
      applyAct s (.waitWake ident) = some { s with ev := s.ev.clearAt ident } ∧
      Sys.getFrameRead { s with ev := s.ev.clearAt ident } = some f ∧
      (s.ev.clearAt ident).flag ident = false := by
  obtain ⟨h1, h2, h3⟩ := inv_run Sys.init s t inv_init h
  have hflag : s.ev.flag ident = true := by
    by_contra hf
    simp only [Bool.not_eq_true] at hf
    simp [enabled, applyAct, hf] at hwake
  have hfr := h2 ident hflag
  obtain ⟨f, hf⟩ := Option.ne_none_iff_exists'.mp hfr
  exact ⟨f, hf, h3 hfr, by simp [applyAct, hflag], by simp [Sys.getFrameRead, hf],
         flag_clearAt_self _ _⟩

theorem c7_get_frame_witness :
    ∃ f, (Sys.mk true (some 5) true .pull [] ⟨[(1, true)]⟩ false 1).frame = some f ∧
      1 ≤ (Sys.mk true (some 5) true .pull [] ⟨[(1, true)]⟩ false 1).published ∧
      applyAct (Sys.mk true (some 5) true .pull [] ⟨[(1, true)]⟩ false 1) (.waitWake 1) =
        some (Sys.mk true (some 5) true .pull []
          ((CameraEvent.mk [(1, true)]).clearAt 1) false 1) ∧
      Sys.getFrameRead (Sys.mk true (some 5) true .pull []
          ((CameraEvent.mk [(1, true)]).clearAt 1) false 1) = some f ∧
      ((CameraEvent.mk [(1, true)]).clearAt 1).flag 1 = false :=
  c7_get_frame [.startLock [.frame 5], .waitReg 1, .wStep, .wStep, .wStep]
    (Sys.mk true (some 5) true .pull [] ⟨[(1, true)]⟩ false 1) 1 (by decide) (by decide)

theorem wStep_no_err (s s' : Sys)
    (hsrc : srcOk s.src = true) (hnf : notFail s.worker = true)
    (h : applyAct s .wStep = some s') :
    srcOk s'.src = true ∧ notFail s'.worker = true ∧
    s'.streaming = s.streaming ∧ s'.failRecorded = s.failRecorded := by
  cases hw : s.worker with
  | pull =>
    cases hsc : s.src with
    | nil =>
      simp [applyAct, hw, hsc] at h
      simp [← h, notFail, hsc ▸ hsrc]
    | cons it rest =>
      cases it with
      | frame f =>
        simp [applyAct, hw, hsc] at h
        rw [hsc] at hsrc
        simp only [srcOk] at hsrc
        simp [← h, notFail, hsrc]
      | err => rw [hsc] at hsrc; simp [srcOk] at hsrc
  | check f =>
    by_cases hstr : s.streaming = true
    · simp [applyAct, hw, hstr] at h
      simp [← h, notFail, hsrc, hstr]
    · simp only [Bool.not_eq_true] at hstr
      simp [applyAct, hw, hstr] at h
      simp [← h, notFail, hsrc, hstr]
  | setEv =>
    simp [applyAct, hw] at h
    simp [← h, notFail, hsrc]
  | fail => rw [hw] at hnf; simp [notFail] at hnf
  | done => simp [applyAct, hw] at h

theorem wSteps_no_err_run (s sF : Sys) (n : Nat)
    (hsrc : srcOk s.src = true) (hnf : notFail s.worker = true)
    (h : run s (List.replicate n .wStep) = some sF) :
    sF.streaming = s.streaming ∧ sF.failRecorded = s.failRecorded := by
  induction n generalizing s with
  | zero => simp [run, List.replicate] at h; simp [← h]
  | succ k ih =>
    rw [List.replicate_succ] at h
    cases happ : applyAct s .wStep with
    | none => simp [run, happ] at h
    | some s1 =>
      simp [run, happ] at h
      obtain ⟨a1, a2, a3, a4⟩ := wStep_no_err s s1 hsrc hnf happ
      obtain ⟨b1, b2⟩ := ih s1 a1 a2 h
      exact ⟨b1.trans a3, b2.trans a4⟩

/-- Claim C8: source exhaustion preserves the streaming state. When the
generator is finite and raises nothing, any number of worker steps leaves the
streaming flag exactly as the caller last set it and records no failure; in
particular, at the pull point with the generator exhausted, the worker's next
step is normal termination, which modifies nothing but its own program
counter. -/
theorem c8_exhaustion (s sF : Sys) (n : Nat)
    (hsrc : srcOk s.src = true) (hnf : notFail s.worker = true)
    (h : run s (List.replicate n .wStep) = some sF) :
    sF.streaming = s.streaming ∧ sF.failRecorded = s.failRecorded ∧
    (s.worker = .pull → s.src = [] →
      applyAct s .wStep = some { s with worker := .done }) := by
  obtain ⟨b1, b2⟩ := wSteps_no_err_run s sF n hsrc hnf h
  exact ⟨b1, b2, fun hp he => by simp [applyAct, hp, he]⟩

theorem c8_exhaustion_witness :
    (Sys.mk true (some 3) true .done [] ⟨[(1, false)]⟩ false 1).streaming =
      (Sys.mk true (some 3) true .pull [] ⟨[(1, false)]⟩ false 1).streaming ∧
    (Sys.mk true (some 3) true .done [] ⟨[(1, false)]⟩ false 1).failRecorded =
      (Sys.mk true (some 3) true .pull [] ⟨[(1, false)]⟩ false 1).failRecorded ∧
    ((Sys.mk true (some 3) true .pull [] ⟨[(1, false)]⟩ false 1).worker = .pull →
      (Sys.mk true (some 3) true .pull [] ⟨[(1, false)]⟩ false 1).src = [] →
      applyAct (Sys.mk true (some 3) true .pull [] ⟨[(1, false)]⟩ false 1) .wStep =
        some (Sys.mk true (some 3) true .done [] ⟨[(1, false)]⟩ false 1)) :=
  c8_exhaustion (Sys.mk true (some 3) true .pull [] ⟨[(1, false)]⟩ false 1)
    (Sys.mk true (some 3) true .done [] ⟨[(1, false)]⟩ false 1)
    1 (by decide) (by decide) (by decide)

end BuildmeCar
